import Mathlib

/-!
Shallow embedding of the deber build tool (Debian packaging with Docker).

The embedding covers the parts of the program the claims are about:

* `pkg/naming/naming.go` — pure name/path derivation (`New`,
  `standardizeVersion`, `standardizeTarget`); Go strings are modelled as
  `List Char` so that the character-level replacement functions are plain
  `List` operations.
* `pkg/util/util.go` — `CompareMounts`.
* `pkg/docker/docker.go` — the container-state queries
  (`IsContainerCreated`, `IsContainerStarted`, `IsContainerStopped`)
  modelled over an explicit container list, the value the Docker client
  call `ContainerList` returns.
* `pkg/steps/steps.go` — `Tarball`, `Archive` and `Stop`, modelled over
  explicit directory listings and an explicit package-store state.
* `main.go` — the stage pipeline of `run`, modelled over abstract stage
  outcomes.
-/

/-- Go strings, modelled as lists of characters. -/
abbrev Str := List Char

/-! ### pkg/naming/naming.go -/

/-- Mirrors `strings.ReplaceAll` for a one-character pattern and a
one-character replacement, the only form `standardizeVersion` uses:
every occurrence of the pattern character is replaced. -/
def replaceAllChar (pat rep : Char) (s : Str) : Str :=
  s.map fun c => if c = pat then rep else c

/-- Embeds `standardizeVersion` (naming.go): replace every `~`, `:` and
`+` of the version by `-`, in that order. -/
def standardizeVersion (version : Str) : Str :=
  replaceAllChar '+' '-' (replaceAllChar ':' '-' (replaceAllChar '~' '-' version))

/-- Mirrors `strings.ReplaceAll` for a general pattern: non-overlapping
occurrences are replaced left to right.  The fuel argument makes the
recursion structural; every step consumes at least one character, so
fuel equal to the length of the string is always enough.  (For an empty
pattern Go would interleave the replacement between characters; the
program only ever passes the pattern `UNRELEASED`.) -/
def replaceAllStrGo (pat rep : Str) : Nat → Str → Str
  | _, [] => []
  | 0, s => s
  | fuel + 1, c :: rest =>
    if pat ≠ [] ∧ pat.isPrefixOf (c :: rest) then
      rep ++ replaceAllStrGo pat rep fuel (rest.drop (pat.length - 1))
    else
      c :: replaceAllStrGo pat rep fuel rest

/-- Entry point of the general `strings.ReplaceAll` model. -/
def replaceAllStr (pat rep s : Str) : Str :=
  replaceAllStrGo pat rep s.length s

/-- Mirrors `strings.Contains`. -/
def hasSubstring (pat : Str) : Str → Bool
  | [] => pat.isEmpty
  | c :: rest => pat.isPrefixOf (c :: rest) || hasSubstring pat rest

/-- Embeds `standardizeTarget` (naming.go): replace `UNRELEASED` by
`unstable`, keep what stands before the first `-` (mirrors
`strings.Split(target, "-")[0]`), and append `-backports` when the
version contains `bpo`. -/
def standardizeTarget (version target : Str) : Str :=
  let t1 := replaceAllStr "UNRELEASED".toList "unstable".toList target
  let t2 := t1.takeWhile fun c => c ≠ '-'
  if hasSubstring "bpo".toList version then t2 ++ "-backports".toList else t2

/-- Models `filepath.Join` of two already-clean path components:
concatenation with a separator (the `Clean` pass of Go's `Join` is not
modelled). -/
def joinPath (a b : Str) : Str := a ++ '/' :: b

/-- Models `filepath.Dir`: the portion of the path before its last
separator (the `Clean` pass and the degenerate cases of Go's `Dir` are
not modelled). -/
def dirname (s : Str) : Str :=
  ((s.reverse.dropWhile fun c => c ≠ '/').drop 1).reverse

/-- Embeds `naming.Args`.  The field `prog` embeds the Go field holding
the program name used in front of every derived name (naming.go calls
it the program prefix). -/
structure Args where
  prog : Str
  source : Str
  version : Str
  upstream : Str
  target : Str
  sourceBaseDir : Str
  buildBaseDir : Str
  cacheBaseDir : Str
  packagesBaseDir : Str
deriving DecidableEq

/-- Embeds `naming.Naming`. -/
structure Naming where
  args : Args
  container : Str
  image : Str
  sourceDir : Str
  sourceParentDir : Str
  buildDir : Str
  cacheDir : Str
  packagesDir : Str
  packagesTargetDir : Str
  packagesSourceDir : Str
  packagesVersionDir : Str
deriving DecidableEq

/-- Embeds `naming.New`: the target of the argument record is first
overwritten with its sanitized form, then every name and path is
derived.  Note that the version directory of the package store is
derived from the original version while the container name uses the
sanitized version. -/
def New (args0 : Args) : Naming :=
  let args := { args0 with target := standardizeTarget args0.version args0.target }
  let version := standardizeVersion args.version
  let image := args.prog ++ ':' :: args.target
  let container :=
    args.prog ++ '_' :: (args.target ++ '_' :: (args.source ++ '_' :: version))
  { args := args
    container := container
    image := image
    sourceDir := args.sourceBaseDir
    sourceParentDir := dirname args.sourceBaseDir
    buildDir := joinPath args.buildBaseDir container
    cacheDir := joinPath args.cacheBaseDir image
    packagesDir := args.packagesBaseDir
    packagesTargetDir := joinPath args.packagesBaseDir args.target
    packagesSourceDir := joinPath (joinPath args.packagesBaseDir args.target) args.source
    packagesVersionDir :=
      joinPath (joinPath (joinPath args.packagesBaseDir args.target) args.source)
        args.version }

/-! ### pkg/util/util.go -/

/-- Embeds `mount.Mount` with the fields the program sets; Go compares
mounts with `==`, which is field-wise equality. -/
structure Mount where
  type : String
  source : String
  target : String
  readOnly : Bool
deriving DecidableEq

/-- Embeds `util.CompareMounts`: false when the lengths differ,
otherwise count the elements of the first list contained in the second
and compare the count with the length of the first list. -/
def CompareMounts (a b : List Mount) : Bool :=
  if a.length ≠ b.length then false
  else (a.countP fun m => b.contains m) == a.length

/-! ### pkg/docker/docker.go -/

/-- A container as the list returned by the Docker client call shows
it: its names (each carrying a leading slash) and its state string. -/
structure DockerContainer where
  names : List String
  state : String
deriving DecidableEq

/-- Embeds the `ContainerStateRunning` constant. -/
def ContainerStateRunning : String := "running"

/-- Embeds `IsContainerCreated`: scan the container list and report
whether some container carries the name. -/
def IsContainerCreated (l : List DockerContainer) (name : String) : Bool :=
  match l with
  | [] => false
  | c :: rest =>
    if c.names.contains ("/" ++ name) then true
    else IsContainerCreated rest name

/-- Embeds `IsContainerStarted`: scan the container list and report
whether some container carries the name and is in the running state. -/
def IsContainerStarted (l : List DockerContainer) (name : String) : Bool :=
  match l with
  | [] => false
  | c :: rest =>
    if c.names.contains ("/" ++ name) && c.state == ContainerStateRunning then true
    else IsContainerStarted rest name

/-- Embeds `IsContainerStopped`: scan the container list and return
false as soon as a container carrying the name is in the running state;
return true when the scan finds none, including when no container of
that name exists at all. -/
def IsContainerStopped (l : List DockerContainer) (name : String) : Bool :=
  match l with
  | [] => true
  | c :: rest =>
    if c.names.contains ("/" ++ name) && c.state == ContainerStateRunning then false
    else IsContainerStopped rest name

/-! ### pkg/steps/steps.go -/

/-- Outcome of a step, with the failure outcomes of the tarball
resolver spelled out. -/
inductive StepResult where
  | done
  | skipped
  | failedMultipleBuild
  | failedMultipleSource
  | failedMissing
deriving DecidableEq

/-- Embeds `steps.Stop` restricted to its observable decision: skip
exactly when the stopped query answers true, otherwise stop the
container and report done. -/
def Stop (l : List DockerContainer) (name : String) : StepResult :=
  if IsContainerStopped l name then .skipped else .done

/-- Mirrors `strings.HasPrefix`, computed on the character lists of the
strings. -/
def goHasPrefix (p s : String) : Bool :=
  p.toList.isPrefixOf s.toList

/-- Mirrors `strings.Split` for a one-character separator. -/
def splitOnChar (sep : Char) : Str → List Str
  | [] => [[]]
  | a :: rest =>
    let r := splitOnChar sep rest
    if a = sep then [] :: r
    else
      match r with
      | h :: t => (a :: h) :: t
      | [] => [[a]]

/-- Last dot-separated component of a file name; mirrors splitting the
name on `.` and taking the final element. -/
def lastDotComponent (name : String) : Str :=
  (splitOnChar '.' name.toList).getLastD []

/-- The extensions the source-parent scan accepts. -/
def tarballExtensions : List Str := ["gz".toList, "xz".toList, "bz2".toList]

/-- The tarball name stem `source_upstream.orig.tar`. -/
def tarballStem (source upstream : String) : String :=
  source ++ "_" ++ upstream ++ ".orig.tar"

/-- Matching rule of the source-parent scan: the stem starts the name
and the last dot component is an accepted extension. -/
def isSourceTarball (stem name : String) : Bool :=
  goHasPrefix stem name && tarballExtensions.contains (lastDotComponent name)

/-- The two directory listings the tarball resolver works on. -/
structure TarballFS where
  sourceParent : List String
  buildDir : List String
deriving DecidableEq

/-- Embeds `steps.Tarball` over the two directory listings.  The
filesystem effects are modelled on the listings: removing a file erases
its name, the rename erases the name from the source-parent listing and
adds it to the build listing.  `filepath.EvalSymlinks` is modelled as
the identity (plain files, no symbolic links). -/
def Tarball (version upstream source : String) (fs : TarballFS) :
    StepResult × TarballFS :=
  if version = upstream then (.skipped, fs)
  else
    let stem := tarballStem source upstream
    let sourceTarballs := fs.sourceParent.filter fun f => isSourceTarball stem f
    let buildTarballs := fs.buildDir.filter fun f => goHasPrefix stem f
    if buildTarballs.length > 1 then (.failedMultipleBuild, fs)
    else if sourceTarballs.length > 1 then (.failedMultipleSource, fs)
    else if sourceTarballs.length < 1 ∧ buildTarballs.length < 1 then
      (.failedMissing, fs)
    else
      match sourceTarballs with
      | [s] =>
        let fs1 : TarballFS :=
          match buildTarballs with
          | [b] => { fs with buildDir := fs.buildDir.erase b }
          | _ => fs
        (.done,
          { fs1 with
            sourceParent := fs1.sourceParent.erase s
            buildDir := fs1.buildDir ++ [s] })
      | _ => (.skipped, fs)

/-- A package-store state: file name to bytes and permission mode,
`none` for an absent file. -/
def Store := String → Option (List Nat × Nat)

/-- Point update of a store. -/
def storeInsert (st : Store) (name : String) (v : List Nat × Nat) : Store :=
  fun m => if m = name then some v else st m

/-- Models `os.WriteFile`: a missing file is created with the given
mode; an existing file is truncated and rewritten and keeps the mode it
already has. -/
def writeFile (st : Store) (name : String) (bytes : List Nat) (mode : Nat) :
    Store :=
  match st name with
  | some (_, oldMode) => storeInsert st name (bytes, oldMode)
  | none => storeInsert st name (bytes, mode)

/-- An entry of the build-directory listing: name, directory flag,
bytes and permission mode. -/
structure FileEntry where
  name : String
  isDir : Bool
  content : List Nat
  mode : Nat
deriving DecidableEq

/-- Result of the archive step: the new store plus the names reported
written and the names reported skipped, in traversal order. -/
structure ArchiveResult where
  store : Store
  written : List String
  skipped : List String

/-- One iteration of the archive loop for a non-directory file: when
the store holds a file of the same name whose checksum equals the build
file's checksum, leave the store alone and report not-written;
otherwise write the bytes.  The checksum function is a parameter of the
embedding; the program instantiates it with MD5, which lives in the Go
standard library outside this repository. -/
def archiveFile (md5 : List Nat → List Nat) (st : Store) (f : FileEntry) :
    Store × Bool :=
  match st f.name with
  | some (targetBytes, _) =>
    if md5 targetBytes = md5 f.content then (st, false)
    else (writeFile st f.name f.content f.mode, true)
  | none => (writeFile st f.name f.content f.mode, true)

/-- The archive loop over the build-directory listing; directories are
passed over. -/
def archiveGo (md5 : List Nat → List Nat) :
    List FileEntry → Store → ArchiveResult
  | [], st => ⟨st, [], []⟩
  | f :: fs, st =>
    if f.isDir then archiveGo md5 fs st
    else
      let step := archiveFile md5 st f
      let r := archiveGo md5 fs step.1
      if step.2 then ⟨r.store, f.name :: r.written, r.skipped⟩
      else ⟨r.store, r.written, f.name :: r.skipped⟩

/-- Embeds `steps.Archive` over the build-directory listing and the
versioned package store. -/
def Archive (md5 : List Nat → List Nat) (buildFiles : List FileEntry)
    (st : Store) : ArchiveResult :=
  archiveGo md5 buildFiles st

/-- Names of the non-directory entries of a listing, in order. -/
def nondirNames (fs : List FileEntry) : List String :=
  (fs.filter fun f => !f.isDir).map FileEntry.name

/-! ### main.go -/

/-- The stages of the pipeline, in the order `run` invokes them. -/
inductive Stage where
  | build
  | create
  | start
  | shell
  | tarball
  | depends
  | package
  | test
  | archive
  | stop
  | remove
deriving DecidableEq

/-- Abstract outcome of every stage call `run` can make, `none` for
success; plus the two flags steering the control flow. -/
structure PipelineEnv where
  buildErr : Option String
  createErr : Option String
  startErr : Option String
  shellFlag : Bool
  shellErr : Option String
  tarballErr : Option String
  dependsErr : Option String
  packageErr : Option String
  removeAfterPackageErr : Option String
  testErr : Option String
  archiveErr : Option String
  stopErr : Option String
  noRemove : Bool
  removeErr : Option String
deriving DecidableEq

/-- Trace of a pipeline run: stages invoked in order, messages printed
(not returned), and the error returned to the caller. -/
structure RunTrace where
  executed : List Stage
  printed : List String
  result : Option String
deriving DecidableEq

/-- Embeds the stage sequencing of `run` (main.go): every stage error
returns at once, the shell flag ends the pipeline after Start, a
Package failure triggers one Remove attempt whose own failure is only
printed while the Package error is returned, and the final Remove is
governed by the no-remove flag. -/
def run (e : PipelineEnv) : RunTrace :=
  match e.buildErr with
  | some err => ⟨[.build], [], some err⟩
  | none =>
  match e.createErr with
  | some err => ⟨[.build, .create], [], some err⟩
  | none =>
  match e.startErr with
  | some err => ⟨[.build, .create, .start], [], some err⟩
  | none =>
  if e.shellFlag then ⟨[.build, .create, .start, .shell], [], e.shellErr⟩
  else
  match e.tarballErr with
  | some err => ⟨[.build, .create, .start, .tarball], [], some err⟩
  | none =>
  match e.dependsErr with
  | some err => ⟨[.build, .create, .start, .tarball, .depends], [], some err⟩
  | none =>
  match e.packageErr with
  | some err =>
    ⟨[.build, .create, .start, .tarball, .depends, .package, .remove],
      (match e.removeAfterPackageErr with | some msg => [msg] | none => []),
      some err⟩
  | none =>
  match e.testErr with
  | some err =>
    ⟨[.build, .create, .start, .tarball, .depends, .package, .test], [], some err⟩
  | none =>
  match e.archiveErr with
  | some err =>
    ⟨[.build, .create, .start, .tarball, .depends, .package, .test, .archive],
      [], some err⟩
  | none =>
  match e.stopErr with
  | some err =>
    ⟨[.build, .create, .start, .tarball, .depends, .package, .test, .archive,
        .stop], [], some err⟩
  | none =>
  if e.noRemove then
    ⟨[.build, .create, .start, .tarball, .depends, .package, .test, .archive,
        .stop], [], none⟩
  else
    ⟨[.build, .create, .start, .tarball, .depends, .package, .test, .archive,
        .stop, .remove], [], e.removeErr⟩

/-! ### Example values used by the witnesses and counterexamples -/

/-- Example mount of the source directory. -/
def mountSrc : Mount := ⟨"bind", "/home/user/pkg", "/build/source", false⟩

/-- Example mount of the build directory. -/
def mountBuild : Mount := ⟨"bind", "/tmp/deber/builddir", "/build", false⟩

/-- Example pipeline environment in which every stage before Package succeeds, Package fails, and the compensating Remove attempt fails as well. -/
def pipelineEnvEx : PipelineEnv :=
  { buildErr := none, createErr := none, startErr := none, shellFlag := false
    shellErr := none, tarballErr := none, dependsErr := none
    packageErr := some "dpkg-buildpackage exited 1"
    removeAfterPackageErr := some "container remove failed"
    testErr := none, archiveErr := none, stopErr := none
    noRemove := false, removeErr := none }

/-- Example naming arguments. -/
def argsEx : Args :=
  { prog := "deber".toList, source := "hello".toList
    version := "1.0~rc1+deb11u1:2".toList, upstream := "1.0".toList
    target := "bookworm".toList
    sourceBaseDir := "/home/user/hello".toList
    buildBaseDir := "/tmp/deber/builddir".toList
    cacheBaseDir := "/tmp/deber/cachedir".toList
    packagesBaseDir := "/tmp/deber/packages".toList }

/-- Example checksum function standing in for MD5. -/
def md5Model : List Nat → List Nat := fun l => [l.length % 256]

/-- Example package store holding one file. -/
def storeEx : Store :=
  fun n => if n = "hello_1.0-1_amd64.deb" then some ([2, 3], 420) else none

/-- Example build-directory listing with two files and a directory. -/
def buildEx : List FileEntry :=
  [⟨"hello_1.0-1_amd64.deb", false, [2, 3], 420⟩,
   ⟨"source", true, [], 493⟩,
   ⟨"hello_1.0-1_amd64.changes", false, [9], 420⟩]

/-! ### Helper lemmas -/

/-- A character of a single-character replacement is the replacement character or an untouched character of the input. -/
theorem mem_replaceAllChar {c pat rep : Char} {s : Str}
    (h : c ∈ replaceAllChar pat rep s) : c = rep ∨ (c ∈ s ∧ c ≠ pat) := by
  simp only [replaceAllChar, List.mem_map] at h
  obtain ⟨x, hx, hc⟩ := h
  by_cases hxp : x = pat
  · subst hxp; rw [if_pos rfl] at hc; exact Or.inl hc.symm
  · rw [if_neg hxp] at hc; subst hc; exact Or.inr ⟨hx, hxp⟩

/-- No character of a sanitized version is one of the three replaced characters. -/
theorem standardizeVersion_chars {v : Str} {c : Char}
    (h : c ∈ standardizeVersion v) : c ≠ '~' ∧ c ≠ ':' ∧ c ≠ '+' := by
  unfold standardizeVersion at h
  rcases mem_replaceAllChar h with h1 | ⟨h1, hpl⟩
  · subst h1; exact ⟨by decide, by decide, by decide⟩
  · rcases mem_replaceAllChar h1 with h2 | ⟨h2, hcl⟩
    · subst h2; exact ⟨by decide, by decide, hpl⟩
    · rcases mem_replaceAllChar h2 with h3 | ⟨h3, htl⟩
      · subst h3; exact ⟨by decide, hcl, hpl⟩
      · exact ⟨htl, hcl, hpl⟩

/-- A map that returns its input list fixes every element. -/
theorem list_map_eq_self {g : Char → Char} :
    ∀ {l : Str}, l.map g = l → ∀ c ∈ l, g c = c := by
  intro l
  induction l with
  | nil => intro _ c hc; cases hc
  | cons a t ih =>
    intro h c hc
    rw [List.map_cons, List.cons.injEq] at h
    rcases List.mem_cons.mp hc with rfl | hct
    · exact h.1
    · exact ih h.2 c hct

/-- Sanitizing changes every version that holds one of the three replaced characters. -/
theorem standardizeVersion_ne {v : Str}
    (h : ∃ c ∈ v, c = '~' ∨ c = ':' ∨ c = '+') : standardizeVersion v ≠ v := by
  intro heq
  obtain ⟨c, hc, hbad⟩ := h
  rw [standardizeVersion, replaceAllChar, replaceAllChar, replaceAllChar,
    List.map_map, List.map_map] at heq
  have := list_map_eq_self heq c hc
  rcases hbad with rfl | rfl | rfl <;> simp at this

/-- Processing one build file leaves every other store name alone. -/
theorem archiveFile_apply_ne (md5 : List Nat → List Nat) (st : Store) (f : FileEntry)
    {n : String} (h : n ≠ f.name) : (archiveFile md5 st f).1 n = st n := by
  cases hst : st f.name with
  | none => simp [archiveFile, writeFile, storeInsert, hst, h]
  | some v =>
    obtain ⟨b, m⟩ := v
    by_cases hmd : md5 b = md5 f.content
    · simp [archiveFile, hst, hmd]
    · simp [archiveFile, writeFile, storeInsert, hst, hmd, h]

/-- Processing one build file either keeps a store name or sets it to some value; it never unsets one. -/
theorem archiveFile_apply_some (md5 : List Nat → List Nat) (st : Store) (f : FileEntry)
    (n : String) :
    (archiveFile md5 st f).1 n = st n ∨ ∃ v, (archiveFile md5 st f).1 n = some v := by
  by_cases hn : n = f.name
  · subst hn
    cases hst : st f.name with
    | none =>
      exact Or.inr ⟨(f.content, f.mode), by simp [archiveFile, writeFile, storeInsert, hst]⟩
    | some v =>
      obtain ⟨b, m⟩ := v
      by_cases hmd : md5 b = md5 f.content
      · exact Or.inl (by simp [archiveFile, hst, hmd])
      · exact Or.inr ⟨(f.content, m),
          by simp [archiveFile, writeFile, storeInsert, hst, hmd]⟩
  · exact Or.inl (archiveFile_apply_ne md5 st f hn)

/-- After processing one build file, the store holds a file of that name whose checksum equals the build file's checksum. -/
theorem archiveFile_checksum (md5 : List Nat → List Nat) (st : Store) (f : FileEntry) :
    ∃ b m, (archiveFile md5 st f).1 f.name = some (b, m) ∧ md5 b = md5 f.content := by
  cases hst : st f.name with
  | none =>
    exact ⟨f.content, f.mode, by simp [archiveFile, writeFile, storeInsert, hst], rfl⟩
  | some v =>
    obtain ⟨b, m⟩ := v
    by_cases hmd : md5 b = md5 f.content
    · exact ⟨b, m, by simp [archiveFile, hst, hmd], hmd⟩
    · exact ⟨f.content, m, by simp [archiveFile, writeFile, storeInsert, hst, hmd], rfl⟩

/-- The store produced for a non-directory head file is the store of the tail run started from the head's update. -/
theorem archiveGo_store_cons (md5 : List Nat → List Nat) (f : FileEntry)
    (fs : List FileEntry) (st : Store) (hd : f.isDir = false) :
    (archiveGo md5 (f :: fs) st).store =
      (archiveGo md5 fs (archiveFile md5 st f).1).store := by
  simp only [archiveGo, hd]
  cases hs : (archiveFile md5 st f).2 <;> simp [hs]

/-- The archive loop leaves every store name alone that is not the name of a non-directory build entry. -/
theorem archiveGo_frame (md5 : List Nat → List Nat) :
    ∀ (fs : List FileEntry) (st : Store) (n : String),
      n ∉ nondirNames fs → (archiveGo md5 fs st).store n = st n := by
  intro fs
  induction fs with
  | nil => intro st n _; rfl
  | cons f rest ih =>
    intro st n h
    cases hd : f.isDir
    · have h' : n ≠ f.name ∧ n ∉ nondirNames rest := by
        simpa [nondirNames, hd] using h
      rw [archiveGo_store_cons md5 f rest st hd, ih _ n h'.2,
        archiveFile_apply_ne md5 st f h'.1]
    · have h' : n ∉ nondirNames rest := by simpa [nondirNames, hd] using h
      simp only [archiveGo, hd]
      exact ih st n h'

/-- The archive loop never unsets a store name. -/
theorem archiveGo_none (md5 : List Nat → List Nat) :
    ∀ (fs : List FileEntry) (st : Store) (n : String),
      (archiveGo md5 fs st).store n = none → st n = none := by
  intro fs
  induction fs with
  | nil => intro st n h; exact h
  | cons f rest ih =>
    intro st n h
    cases hd : f.isDir
    · rw [archiveGo_store_cons md5 f rest st hd] at h
      have h1 := ih _ n h
      rcases archiveFile_apply_some md5 st f n with h2 | ⟨v, h2⟩
      · rw [← h2]; exact h1
      · rw [h2] at h1; cases h1
    · simp only [archiveGo, hd] at h
      exact ih st n h

/-- After one archive run over a listing with distinct names, every non-directory build file has a store entry with a matching checksum. -/
theorem archiveGo_checksum (md5 : List Nat → List Nat) :
    ∀ (fs : List FileEntry) (st : Store), (nondirNames fs).Nodup →
      ∀ f ∈ fs, f.isDir = false →
      ∃ b m, (archiveGo md5 fs st).store f.name = some (b, m) ∧
        md5 b = md5 f.content := by
  intro fs
  induction fs with
  | nil => intro st _ f hf; cases hf
  | cons g rest ih =>
    intro st hnd f hf hfd
    cases hgd : g.isDir
    · have hnd' : g.name ∉ nondirNames rest ∧ (nondirNames rest).Nodup := by
        simpa [nondirNames, hgd, List.nodup_cons] using hnd
      rcases List.mem_cons.mp hf with rfl | hfr
      · obtain ⟨b, m, hsome, hmd⟩ := archiveFile_checksum md5 st f
        refine ⟨b, m, ?_, hmd⟩
        rw [archiveGo_store_cons md5 f rest st hgd,
          archiveGo_frame md5 rest _ _ hnd'.1]
        exact hsome
      · rw [archiveGo_store_cons md5 g rest st hgd]
        exact ih _ hnd'.2 f hfr hfd
    · have hfr : f ∈ rest := by
        rcases List.mem_cons.mp hf with rfl | hfr
        · rw [hfd] at hgd; cases hgd
        · exact hfr
      have hnd' : (nondirNames rest).Nodup := by
        simpa [nondirNames, hgd] using hnd
      simp only [archiveGo, hgd]
      exact ih st hnd' f hfr hfd

/-- When every non-directory build file already has a store entry with a matching checksum, the archive loop writes nothing and reports every such file skipped. -/
theorem archiveGo_skipAll (md5 : List Nat → List Nat) :
    ∀ (fs : List FileEntry) (st : Store),
      (∀ f ∈ fs, f.isDir = false →
        ∃ b m, st f.name = some (b, m) ∧ md5 b = md5 f.content) →
      archiveGo md5 fs st = ⟨st, [], nondirNames fs⟩ := by
  intro fs
  induction fs with
  | nil => intro st _; rfl
  | cons g rest ih =>
    intro st hall
    cases hgd : g.isDir
    · obtain ⟨b, m, hsome, hmd⟩ := hall g (List.mem_cons_self _ _) hgd
      have hstep : archiveFile md5 st g = (st, false) := by
        simp [archiveFile, hsome, hmd]
      simp only [archiveGo, hgd, hstep]
      rw [ih st (fun f hf => hall f (List.mem_cons_of_mem _ hf))]
      simp [nondirNames, hgd]
    · simp only [archiveGo, hgd]
      rw [ih st (fun f hf => hall f (List.mem_cons_of_mem _ hf))]
      simp [nondirNames, hgd]

/-! ### The claims -/

/-- Claim C1, amended: Archive is content-addressed and idempotent. For a non-directory build file, when the store holds a file of the same name with an equal checksum the file is skipped and the store is untouched; when the checksums differ the bytes are written and the existing store file keeps its previous permission mode; when the store has no file of that name the bytes are written with the source file's permission mode. Running Archive a second time on an unchanged build directory (distinct entry names) performs zero writes to the store: the store is unchanged, nothing is reported written and every non-directory file is reported Skipped. -/
theorem c1_archive_content_addressed :
    (∀ (md5 : List Nat → List Nat) (st : Store) (f : FileEntry)
        (b : List Nat) (m : Nat),
      st f.name = some (b, m) → md5 b = md5 f.content →
      archiveFile md5 st f = (st, false)) ∧
    (∀ (md5 : List Nat → List Nat) (st : Store) (f : FileEntry)
        (b : List Nat) (m : Nat),
      st f.name = some (b, m) → md5 b ≠ md5 f.content →
      archiveFile md5 st f = (storeInsert st f.name (f.content, m), true)) ∧
    (∀ (md5 : List Nat → List Nat) (st : Store) (f : FileEntry),
      st f.name = none →
      archiveFile md5 st f = (storeInsert st f.name (f.content, f.mode), true)) ∧
    (∀ (md5 : List Nat → List Nat) (build : List FileEntry) (st : Store),
      (nondirNames build).Nodup →
      Archive md5 build (Archive md5 build st).store =
        ⟨(Archive md5 build st).store, [], nondirNames build⟩) := by
  refine ⟨?_, ?_, ?_, ?_⟩
  · intro md5 st f b m hst hmd
    simp [archiveFile, hst, hmd]
  · intro md5 st f b m hst hmd
    simp [archiveFile, writeFile, hst, hmd]
  · intro md5 st f hst
    simp [archiveFile, writeFile, hst]
  · intro md5 build st hnd
    exact archiveGo_skipAll md5 build _
      (fun f hf hfd => archiveGo_checksum md5 build st hnd f hf hfd)

/-- Witness for C1 at a concrete build directory and store. -/
theorem c1_archive_content_addressed_witness :
    Archive md5Model buildEx (Archive md5Model buildEx storeEx).store =
      ⟨(Archive md5Model buildEx storeEx).store, [],
        ["hello_1.0-1_amd64.deb", "hello_1.0-1_amd64.changes"]⟩ :=
  c1_archive_content_addressed.2.2.2 md5Model buildEx storeEx (by decide)

/-- Counterexample to C1 as stated: overwriting an existing store file whose checksum differs keeps the store file's old permission mode 384 instead of applying the source file's mode 420, because the write models os.WriteFile, which leaves the permissions of an existing file unchanged. -/
theorem c1_archive_mode_counterexample :
    (Archive md5Model [⟨"hello.deb", false, [9], 420⟩]
      (fun n => if n = "hello.deb" then some ([2, 3], 384) else none)).store
        "hello.deb" = some ([9], 384) ∧
    (Archive md5Model [⟨"hello.deb", false, [9], 420⟩]
      (fun n => if n = "hello.deb" then some ([2, 3], 384) else none)).store
        "hello.deb" ≠ some ([9], 420) := by
  constructor <;> decide

/-- Claim C2, amended: CompareMounts existing desired is true exactly when the two lists have equal length and every element of the existing list occurs in the desired list; two lists holding the same elements in a different order compare true, and a pair where the existing list holds an element missing from the desired list compares false. -/
theorem c2_compare_mounts :
    (∀ a b : List Mount, CompareMounts a b = true ↔
      (a.length = b.length ∧ ∀ m ∈ a, m ∈ b)) ∧
    (∀ a b : List Mount, a.Perm b → CompareMounts a b = true) ∧
    (∀ a b : List Mount, (∃ m ∈ a, m ∉ b) → CompareMounts a b = false) := by
  have key : ∀ a b : List Mount, CompareMounts a b = true ↔
      (a.length = b.length ∧ ∀ m ∈ a, m ∈ b) := by
    intro a b
    unfold CompareMounts
    by_cases h : a.length = b.length
    · rw [if_neg (by simpa using h), beq_iff_eq, List.countP_eq_length]
      simp [h, List.elem_iff]
    · rw [if_pos h]
      simp [h]
  refine ⟨key, ?_, ?_⟩
  · intro a b hp
    exact (key a b).mpr ⟨hp.length_eq, fun m hm => hp.mem_iff.mp hm⟩
  · intro a b ⟨m, hm, hnb⟩
    rw [Bool.eq_false_iff]
    intro h
    exact hnb (((key a b).mp h).2 m hm)

/-- Counterexample to C2 as stated: the containment check runs over the existing list, not the desired one. For existing [m, m] and desired [m, n] the function returns true although the desired element n occurs nowhere in the existing list, so the claimed equivalence and the claimed missing-element falsity both fail. -/
theorem c2_compare_mounts_counterexample :
    CompareMounts [mountSrc, mountSrc] [mountSrc, mountBuild] = true ∧
    mountBuild ∉ [mountSrc, mountSrc] := by decide

/-- Witness for C2 on two permuted mount lists. -/
theorem c2_compare_mounts_witness :
    CompareMounts [mountSrc, mountBuild] [mountBuild, mountSrc] = true :=
  c2_compare_mounts.2.1 [mountSrc, mountBuild] [mountBuild, mountSrc]
    (List.Perm.swap mountBuild mountSrc [])

/-- Claim C3, amended: the stopped query answers true exactly when no container of the given name is in the running state; the query never consults bare existence, so it answers true — not false — when no container of that name exists at all. The Stop step skips exactly when the query answers true. -/
theorem c3_container_stopped :
    (∀ (l : List DockerContainer) (name : String),
      IsContainerStopped l name = !IsContainerStarted l name) ∧
    (∀ (l : List DockerContainer) (name : String),
      Stop l name = .skipped ↔ IsContainerStopped l name = true) := by
  constructor
  · intro l name
    induction l with
    | nil => rfl
    | cons c rest ih =>
      cases h : (c.names.contains ("/" ++ name) && c.state == ContainerStateRunning) <;>
        simp [IsContainerStopped, IsContainerStarted, h, ih]
  · intro l name
    by_cases h : IsContainerStopped l name = true
    · simp [Stop, h]
    · rw [Bool.not_eq_true] at h
      simp [Stop, h]

/-- Counterexample to C3 as stated: on an empty container list the stopped query answers true while containerExists && !containerRunning is false. -/
theorem c3_container_stopped_counterexample :
    IsContainerStopped [] "deber_unstable_hello_1.0-1" = true ∧
    (IsContainerCreated [] "deber_unstable_hello_1.0-1" &&
      !IsContainerStarted [] "deber_unstable_hello_1.0-1") = false := by decide

/-- Witness for C3: Stop skips on an exited container. -/
theorem c3_container_stopped_witness :
    Stop [⟨["/deber_unstable_hello_1.0-1"], "exited"⟩]
      "deber_unstable_hello_1.0-1" = .skipped :=
  (c3_container_stopped.2 [⟨["/deber_unstable_hello_1.0-1"], "exited"⟩]
    "deber_unstable_hello_1.0-1").mpr (by decide)

/-- Claim C4: for a native package, where the version equals the upstream version, the Tarball step is skipped with no filesystem action; for a non-native package it fails with an ambiguous-tarball failure whenever the build directory or the source-parent directory holds more than one matching tarball, leaving both directories unchanged, and fails with the missing-tarball failure when both directories hold no match. -/
theorem c4_tarball_failures :
    (∀ (upstream source : String) (fs : TarballFS),
      Tarball upstream upstream source fs = (.skipped, fs)) ∧
    (∀ (version upstream source : String) (fs : TarballFS),
      version ≠ upstream →
      ((1 < (fs.buildDir.filter fun f =>
          goHasPrefix (tarballStem source upstream) f).length ∨
        1 < (fs.sourceParent.filter fun f =>
          isSourceTarball (tarballStem source upstream) f).length →
        ((Tarball version upstream source fs).1 = .failedMultipleBuild ∨
          (Tarball version upstream source fs).1 = .failedMultipleSource) ∧
        (Tarball version upstream source fs).2 = fs) ∧
      ((fs.sourceParent.filter fun f =>
          isSourceTarball (tarballStem source upstream) f) = [] ∧
        (fs.buildDir.filter fun f =>
          goHasPrefix (tarballStem source upstream) f) = [] →
        Tarball version upstream source fs = (.failedMissing, fs)))) := by
  constructor
  · intro upstream source fs
    simp [Tarball]
  · intro version upstream source fs hne
    constructor
    · intro hor
      simp only [Tarball]
      rw [if_neg hne]
      by_cases hb : 1 < (fs.buildDir.filter fun f =>
          goHasPrefix (tarballStem source upstream) f).length
      · rw [if_pos hb]
        exact ⟨Or.inl rfl, rfl⟩
      · have hsrc : 1 < (fs.sourceParent.filter fun f =>
            isSourceTarball (tarballStem source upstream) f).length := by
          rcases hor with h | h
          · exact absurd h hb
          · exact h
        rw [if_neg hb, if_pos hsrc]
        exact ⟨Or.inr rfl, rfl⟩
    · intro ⟨hs0, hb0⟩
      simp only [Tarball]
      rw [if_neg hne, hs0, hb0]
      rw [if_neg (by decide), if_neg (by decide), if_pos (by decide)]

/-- Witness for C4: two source-parent matches fail as ambiguous, no matches fail as missing, and a native version is skipped. -/
theorem c4_tarball_failures_witness :
    Tarball "1.0-1" "1.0" "hello"
      ⟨["hello_1.0.orig.tar.gz", "hello_1.0.orig.tar.xz"], []⟩ =
      (.failedMultipleSource,
        ⟨["hello_1.0.orig.tar.gz", "hello_1.0.orig.tar.xz"], []⟩) ∧
    Tarball "1.0-1" "1.0" "hello" ⟨[], []⟩ = (.failedMissing, ⟨[], []⟩) ∧
    Tarball "1.0" "1.0" "hello" ⟨["x"], ["y"]⟩ = (.skipped, ⟨["x"], ["y"]⟩) := by
  have hfail := (c4_tarball_failures.2 "1.0-1" "1.0" "hello"
    ⟨["hello_1.0.orig.tar.gz", "hello_1.0.orig.tar.xz"], []⟩ (by decide)).1
    (Or.inr (by decide))
  have hmiss := (c4_tarball_failures.2 "1.0-1" "1.0" "hello" ⟨[], []⟩ (by decide)).2
    ⟨rfl, rfl⟩
  have hnative := c4_tarball_failures.1 "1.0" "hello" ⟨["x"], ["y"]⟩
  refine ⟨?_, hmiss, hnative⟩
  rcases hfail.1 with h | h
  · exact absurd h (by decide)
  · exact Prod.ext h hfail.2

/-- Claim C5: for a non-native package whose source-parent directory holds exactly one matching tarball, the step deletes any matching tarball already in the build directory and moves the match in by rename, so afterwards the name is gone from the source-parent listing and present in the build listing; when the source-parent directory holds no match and the build directory exactly one, the step is skipped and both listings are unchanged. -/
theorem c5_tarball_resolution :
    ∀ (version upstream source : String) (fs : TarballFS),
      version ≠ upstream →
      fs.sourceParent.Nodup →
      ((∀ s : String,
        (fs.sourceParent.filter fun f =>
          isSourceTarball (tarballStem source upstream) f) = [s] →
        (fs.buildDir.filter fun f =>
          goHasPrefix (tarballStem source upstream) f).length ≤ 1 →
        Tarball version upstream source fs =
          (.done,
            { sourceParent := fs.sourceParent.erase s
              buildDir :=
                (match fs.buildDir.filter fun f =>
                    goHasPrefix (tarballStem source upstream) f with
                  | [b] => fs.buildDir.erase b
                  | _ => fs.buildDir) ++ [s] }) ∧
        s ∉ fs.sourceParent.erase s ∧
        s ∈ (match fs.buildDir.filter fun f =>
                goHasPrefix (tarballStem source upstream) f with
              | [b] => fs.buildDir.erase b
              | _ => fs.buildDir) ++ [s]) ∧
      ((fs.sourceParent.filter fun f =>
          isSourceTarball (tarballStem source upstream) f) = [] →
        ∀ b, (fs.buildDir.filter fun f =>
          goHasPrefix (tarballStem source upstream) f) = [b] →
        Tarball version upstream source fs = (.skipped, fs))) := by
  intro version upstream source fs hne hnd
  constructor
  · intro s hs hble
    refine ⟨?_, hnd.not_mem_erase, by simp⟩
    simp only [Tarball]
    rw [if_neg hne, hs]
    by_cases hb2 : 1 < (fs.buildDir.filter fun f =>
        goHasPrefix (tarballStem source upstream) f).length
    · exact absurd hble (by omega)
    rw [if_neg hb2, if_neg (by simp), if_neg (by simp)]
    rcases hbl : fs.buildDir.filter fun f =>
        goHasPrefix (tarballStem source upstream) f with _ | ⟨b, _ | ⟨b2, t⟩⟩
    · rfl
    · rfl
    · rfl
  · intro hs0 b hb
    simp only [Tarball]
    rw [if_neg hne, hs0, hb]
    rw [if_neg (by simp), if_neg (by decide), if_neg (by simp)]

/-- Witness for C5: one source-parent match moves into an empty build directory; a lone build-directory match is left in place. -/
theorem c5_tarball_resolution_witness :
    Tarball "1.0-1" "1.0" "hello" ⟨["hello_1.0.orig.tar.gz"], []⟩ =
      (.done, ⟨[], ["hello_1.0.orig.tar.gz"]⟩) ∧
    Tarball "1.0-1" "1.0" "hello" ⟨[], ["hello_1.0.orig.tar.gz"]⟩ =
      (.skipped, ⟨[], ["hello_1.0.orig.tar.gz"]⟩) := by
  have h := c5_tarball_resolution "1.0-1" "1.0" "hello"
    ⟨["hello_1.0.orig.tar.gz"], []⟩ (by decide) (by decide)
  have h1 := (h.1 "hello_1.0.orig.tar.gz" (by decide) (by decide)).1
  have h2 := (c5_tarball_resolution "1.0-1" "1.0" "hello"
    ⟨[], ["hello_1.0.orig.tar.gz"]⟩ (by decide) (by decide)).2
    (by decide) "hello_1.0.orig.tar.gz" (by decide)
  exact ⟨by rw [h1]; decide, h2⟩

/-- Claim C6: no character of a sanitized version is one of the tilde, colon and plus characters; the sanitized form of 1.0~rc1+deb11u1:2 is 1.0-rc1-deb11u1-2; the container name is built as prefix_target_source_version from the sanitized target and the sanitized version, so it holds none of the three characters whenever the remaining components hold none. -/
theorem c6_version_sanitization :
    (∀ (v : Str) (c : Char), c ∈ standardizeVersion v →
      c ≠ '~' ∧ c ≠ ':' ∧ c ≠ '+') ∧
    standardizeVersion "1.0~rc1+deb11u1:2".toList = "1.0-rc1-deb11u1-2".toList ∧
    (∀ a : Args, (New a).container =
      a.prog ++ '_' :: (standardizeTarget a.version a.target ++ '_' ::
        (a.source ++ '_' :: standardizeVersion a.version))) ∧
    (∀ a : Args,
      (∀ c ∈ a.prog, c ≠ '~' ∧ c ≠ ':' ∧ c ≠ '+') →
      (∀ c ∈ standardizeTarget a.version a.target, c ≠ '~' ∧ c ≠ ':' ∧ c ≠ '+') →
      (∀ c ∈ a.source, c ≠ '~' ∧ c ≠ ':' ∧ c ≠ '+') →
      ∀ c ∈ (New a).container, c ≠ '~' ∧ c ≠ ':' ∧ c ≠ '+') := by
  refine ⟨fun v c h => standardizeVersion_chars h, by decide, fun a => rfl, ?_⟩
  intro a hp ht hs c hc
  have hc' : c ∈ a.prog ++ '_' :: (standardizeTarget a.version a.target ++ '_' ::
      (a.source ++ '_' :: standardizeVersion a.version)) := hc
  simp only [List.mem_append, List.mem_cons] at hc'
  rcases hc' with h | h
  · exact hp c h
  rcases h with rfl | h
  · exact ⟨by decide, by decide, by decide⟩
  rcases h with h | h
  · exact ht c h
  rcases h with rfl | h
  · exact ⟨by decide, by decide, by decide⟩
  rcases h with h | h
  · exact hs c h
  rcases h with rfl | h
  · exact ⟨by decide, by decide, by decide⟩
  exact standardizeVersion_chars h

/-- Witness for C6 at the concrete example version and arguments. -/
theorem c6_version_sanitization_witness :
    standardizeVersion "1.0~rc1+deb11u1:2".toList = "1.0-rc1-deb11u1-2".toList ∧
    ('-' ≠ '~' ∧ '-' ≠ ':' ∧ '-' ≠ '+') :=
  ⟨c6_version_sanitization.2.1,
    c6_version_sanitization.2.2.2 argsEx (by decide) (by decide) (by decide)
      '-' (by decide)⟩

/-- Claim C7: the image name is the prefix followed by the sanitized target; target UNRELEASED sanitizes to unstable, bookworm-security to bookworm, and bookworm together with a version containing bpo to bookworm-backports; in general the sanitized target ends in -backports exactly when the version contains bpo. -/
theorem c7_target_sanitization :
    (∀ a : Args, (New a).image =
      a.prog ++ ':' :: standardizeTarget a.version a.target) ∧
    standardizeTarget "1.0-1".toList "UNRELEASED".toList = "unstable".toList ∧
    standardizeTarget "1.0-1".toList "bookworm-security".toList = "bookworm".toList ∧
    standardizeTarget "1.0-1~bpo12+1".toList "bookworm".toList =
      "bookworm-backports".toList ∧
    (∀ v t : Str, "-backports".toList <:+ standardizeTarget v t ↔
      hasSubstring "bpo".toList v = true) := by
  refine ⟨fun a => rfl, by decide, by decide, by decide, ?_⟩
  intro v t
  unfold standardizeTarget
  cases h : hasSubstring "bpo".toList v
  · simp only [h, if_false, Bool.false_eq_true]
    constructor
    · intro hs
      exfalso
      have hmem : '-' ∈ (replaceAllStr "UNRELEASED".toList "unstable".toList t).takeWhile
          (fun c => c ≠ '-') := hs.subset (by decide)
      have := List.mem_takeWhile_imp hmem
      simp at this
    · intro hfalse
      cases hfalse
  · simp only [h, if_true]
    constructor
    · intro _; trivial
    · intro _
      exact List.suffix_append _ _

/-- Witness for C7 at the backport example and the example arguments. -/
theorem c7_target_sanitization_witness :
    ("-backports".toList <:+
      standardizeTarget "1.0-1~bpo12+1".toList "bookworm".toList) ∧
    (New argsEx).image = "deber".toList ++ ':' :: "bookworm".toList :=
  ⟨(c7_target_sanitization.2.2.2.2 "1.0-1~bpo12+1".toList "bookworm".toList).mpr
      (by decide),
    by
      have h := c7_target_sanitization.1 argsEx
      simpa using h⟩

/-- Claim C8: when every stage before Package succeeds and Package fails, the pipeline returns the Package error, the Lint/Test, Archive and Stop stages never run, exactly one Remove attempt is made, and a failure of that attempt is only printed, never returned. -/
theorem c8_package_failure_compensation :
    ∀ (e : PipelineEnv) (err : String),
      e.buildErr = none → e.createErr = none → e.startErr = none →
      e.shellFlag = false → e.tarballErr = none → e.dependsErr = none →
      e.packageErr = some err →
      (run e).result = some err ∧
      (run e).executed =
        [.build, .create, .start, .tarball, .depends, .package, .remove] ∧
      Stage.test ∉ (run e).executed ∧
      Stage.archive ∉ (run e).executed ∧
      Stage.stop ∉ (run e).executed ∧
      (run e).executed.count Stage.remove = 1 ∧
      (run e).printed =
        (match e.removeAfterPackageErr with | some msg => [msg] | none => []) := by
  intro e err h1 h2 h3 h4 h5 h6 h7
  simp [run, h1, h2, h3, h4, h5, h6, h7]

/-- Witness for C8 at a concrete environment whose compensating Remove attempt itself fails. -/
theorem c8_package_failure_compensation_witness :
    (run pipelineEnvEx).result = some "dpkg-buildpackage exited 1" ∧
    (run pipelineEnvEx).executed.count Stage.remove = 1 ∧
    Stage.archive ∉ (run pipelineEnvEx).executed ∧
    (run pipelineEnvEx).printed = ["container remove failed"] := by
  have h := c8_package_failure_compensation pipelineEnvEx "dpkg-buildpackage exited 1"
    rfl rfl rfl rfl rfl rfl rfl
  exact ⟨h.1, h.2.2.2.2.2.1, h.2.2.2.1, h.2.2.2.2.2.2⟩

/-- Claim C9: New overwrites the target of the embedded arguments with its sanitized form and derives every target-bearing name and path from the sanitized target, while the version field stays original; the package-store version directory embeds the original version string and the container name embeds the sanitized version, and the two renderings differ whenever the version holds a tilde, colon or plus. -/
theorem c9_naming_version_renderings :
    (∀ a : Args, (New a).args.target = standardizeTarget a.version a.target) ∧
    (∀ a : Args, (New a).args.version = a.version) ∧
    (∀ a : Args, (New a).packagesVersionDir =
      joinPath (joinPath (joinPath a.packagesBaseDir
        (standardizeTarget a.version a.target)) a.source) a.version) ∧
    (∀ a : Args, (New a).packagesTargetDir =
      joinPath a.packagesBaseDir (standardizeTarget a.version a.target)) ∧
    (∀ a : Args, (New a).packagesSourceDir =
      joinPath (joinPath a.packagesBaseDir (standardizeTarget a.version a.target))
        a.source) ∧
    (∀ a : Args, (New a).image = a.prog ++ ':' :: standardizeTarget a.version a.target) ∧
    (∀ a : Args, (New a).cacheDir = joinPath a.cacheBaseDir ((New a).image)) ∧
    (∀ a : Args, (New a).buildDir = joinPath a.buildBaseDir ((New a).container)) ∧
    (∀ a : Args, (New a).container =
      a.prog ++ '_' :: (standardizeTarget a.version a.target ++ '_' ::
        (a.source ++ '_' :: standardizeVersion a.version))) ∧
    (∀ v : Str, (∃ c ∈ v, c = '~' ∨ c = ':' ∨ c = '+') →
      standardizeVersion v ≠ v) :=
  ⟨fun _ => rfl, fun _ => rfl, fun _ => rfl, fun _ => rfl, fun _ => rfl,
    fun _ => rfl, fun _ => rfl, fun _ => rfl, fun _ => rfl,
    fun _ h => standardizeVersion_ne h⟩

/-- Witness for C9: the example version is changed by sanitizing, yet the version directory of the package store keeps it verbatim. -/
theorem c9_naming_version_renderings_witness :
    standardizeVersion "1.0~rc1+deb11u1:2".toList ≠ "1.0~rc1+deb11u1:2".toList ∧
    (New argsEx).packagesVersionDir =
      joinPath (joinPath (joinPath "/tmp/deber/packages".toList
        (standardizeTarget argsEx.version argsEx.target)) "hello".toList)
        "1.0~rc1+deb11u1:2".toList :=
  ⟨c9_naming_version_renderings.2.2.2.2.2.2.2.2.2 "1.0~rc1+deb11u1:2".toList
      (by decide),
    c9_naming_version_renderings.2.2.1 argsEx⟩

/-- Claim C10: Archive only creates or overwrites store files whose names occur as non-directory entries of the build directory — every other store file keeps its exact prior state — and never deletes a store file. -/
theorem c10_archive_frame :
    (∀ (md5 : List Nat → List Nat) (build : List FileEntry) (st : Store)
        (n : String),
      n ∉ nondirNames build → (Archive md5 build st).store n = st n) ∧
    (∀ (md5 : List Nat → List Nat) (build : List FileEntry) (st : Store)
        (n : String),
      st n ≠ none → (Archive md5 build st).store n ≠ none) := by
  refine ⟨fun md5 build st n h => archiveGo_frame md5 build st n h, ?_⟩
  intro md5 build st n h hcon
  exact h (archiveGo_none md5 build st n hcon)

/-- Witness for C10 on the example store and build directory. -/
theorem c10_archive_frame_witness :
    (Archive md5Model buildEx storeEx).store "hello_1.0-1.dsc" =
      storeEx "hello_1.0-1.dsc" ∧
    (Archive md5Model buildEx storeEx).store "hello_1.0-1_amd64.deb" ≠ none :=
  ⟨c10_archive_frame.1 md5Model buildEx storeEx "hello_1.0-1.dsc" (by decide),
    c10_archive_frame.2 md5Model buildEx storeEx "hello_1.0-1_amd64.deb"
      (by decide)⟩
